import Mathlib

/-!
# Verification of the ralph-py-cli iteration control loop

Shallow embedding of the parts of `ralph-py-cli` that the specification's
claims are about:

* `src/ralph_py_cli/utils/token_usage.py` — `TokenUsage`, `TokenUsageTracker`,
  `parse_token_usage`;
* `src/ralph_py_cli/utils/agents/claude.py` — `ClaudeAgent.parse_output` and
  `_extract_fallback_summary`;
* `src/ralph_py_cli/utils/agents/opencode.py` — `OpenCodeAgent.parse_output`;
* `src/ralph_py_cli/utils/interactive.py` — `LoopState`, `prompt_edit_menu`,
  `get_user_decision`;
* `src/ralph_py_cli/cli.py` — `run_loop`, `run_endless_loop` and the exit-code
  mapping of the `run` command.

Modelling conventions:

* Python strings are `List Char`; Python `str.strip`, `str.split("\n")`,
  `" ".join`, slicing `[:500]` and `[-3:]` are transcribed as executable
  functions below.
* Decoded JSON documents are values of the inductive type `Json`.  The call
  `json.loads(text)` on an arbitrary string is a foreign-library call; it is
  modelled as an explicit function parameter
  `loads : List Char → Option Json` (`none` standing for a raised
  `json.JSONDecodeError`).  All theorems quantify over `loads`, so they hold
  in particular for the real JSON decoder.  JSON numbers are modelled as
  integers: every token-count field the code reads is an integer field.
* `re.search(r"<Completed>(.*?)</Completed>", text, re.DOTALL)` is modelled by
  `findMarker`: the leftmost position where the whole pattern matches, with
  the non-greedy group ending at the first closing tag after the opening tag.
* The subprocess call made by `run_agent_iteration` is an external effect; the
  loop functions take the per-iteration `AgentRunResult` as an oracle function
  `outcome : Nat → AgentRunResult` indexed by the 1-based iteration number.
* Blocking terminal input in `interactive.py` is modelled by finite scripts of
  user choices (`EditAction`, `MainAction`); the sub-prompt helpers
  (`prompt_new_plan_text`, `prompt_new_iteration_count`, ...) validate their
  input, which is reflected in the types of the script payloads
  (e.g. `prompt_new_iteration_count` only ever returns a non-negative count).
-/

set_option autoImplicit false

/-- Decoded JSON value (the result of Python's `json.loads`).  Numbers are
modelled as integers; every numeric field read by the code under verification
is an integer token count. -/
inductive Json where
  | null : Json
  | bool (b : Bool) : Json
  | num (n : Int) : Json
  | str (s : List Char) : Json
  | arr (elements : List Json) : Json
  | obj (fields : List (List Char × Json)) : Json

/-- Key lookup in a decoded JSON object.  A decoded Python dict has unique
keys, so first-match lookup agrees with dict indexing. -/
def jsonLookup (fields : List (List Char × Json)) (key : List Char) : Option Json :=
  match fields with
  | [] => none
  | (k, v) :: rest => if k = key then some v else jsonLookup rest key

/-- Python's `d.get(key, default)` on a decoded JSON object. -/
def jsonLookupD (fields : List (List Char × Json)) (key : List Char) (default : Json) : Json :=
  match jsonLookup fields key with
  | some v => v
  | none => default

/-- Python's `d.get(key, default)` applied to a JSON value that the code has
not type-checked first.  In `OpenCodeAgent.parse_output` the value
`tokens = part.get("tokens", {})` is used with `.get` without an
`isinstance(..., dict)` check; a truthy non-dict value would raise
`AttributeError` in Python (outside the NDJSON schema, and outside every
claim); the model reads fields only from objects and returns the default
otherwise. -/
def jsonGetD (j : Json) (key : List Char) (default : Json) : Json :=
  match j with
  | .obj fields => jsonLookupD fields key default
  | _ => default

/-- Python truthiness of a decoded JSON value (`if x:`). -/
def pyTruthy : Json → Bool
  | .null => false
  | .bool b => b
  | .num n => n != 0
  | .str s => !s.isEmpty
  | .arr elements => !elements.isEmpty
  | .obj fields => !fields.isEmpty

/-- Python's `x == 0` for a decoded JSON value (`False == 0` is `True` in
Python). -/
def pyEqZero : Json → Bool
  | .num n => n == 0
  | .bool b => !b
  | _ => false

/-- Reads a decoded JSON value as an integer.  The code stores the values it
reads from integer token-count fields into `int`-annotated dataclass fields;
Python booleans are the integers `0` and `1`. -/
def jsonAsInt : Json → Int
  | .num n => n
  | .bool true => 1
  | .bool false => 0
  | _ => 0

/-- ASCII whitespace as recognised by Python's `str.strip()` and
`str.isspace` (space, tab, newline, carriage return, vertical tab, form
feed). -/
def pyIsSpace (c : Char) : Bool :=
  c == ' ' || c == '\t' || c == '\n' || c == '\r' || c == Char.ofNat 11 || c == Char.ofNat 12

/-- Python's `s.strip()`. -/
def pyStrip (s : List Char) : List Char :=
  ((s.dropWhile pyIsSpace).reverse.dropWhile pyIsSpace).reverse

/-- Python's `s.split("\n")` (in particular `"".split("\n") == [""]`). -/
def pySplitNl : List Char → List (List Char)
  | [] => [[]]
  | c :: rest =>
    if c = '\n' then [] :: pySplitNl rest
    else
      match pySplitNl rest with
      | [] => [[c]]
      | p :: ps => (c :: p) :: ps

/-- The single-quote character, used by Python's `repr`. -/
def singleQuote : Char := Char.ofNat 39

/-- Left brace character. -/
def lbrace : Char := Char.ofNat 123

/-- Right brace character. -/
def rbrace : Char := Char.ofNat 125

mutual

/-- Python's `str(...)` on a decoded JSON value, as used by
`ClaudeAgent.parse_output` in the default of `result.get("text", str(result))`.
The code only ever applies it to a decoded dict; nested values print with
`repr`, which is what this transcribes. -/
def pyStrOfJson : Json → List Char
  | .null => "None".data
  | .bool true => "True".data
  | .bool false => "False".data
  | .num n => (toString n).data
  | .str s => singleQuote :: (s ++ [singleQuote])
  | .arr elements => '[' :: (pyStrOfJsonList elements ++ [']'])
  | .obj fields => lbrace :: (pyStrOfJsonFields fields ++ [rbrace])

/-- Comma-separated `repr` of the elements of a decoded JSON array. -/
def pyStrOfJsonList : List Json → List Char
  | [] => []
  | [j] => pyStrOfJson j
  | j :: rest => pyStrOfJson j ++ ", ".data ++ pyStrOfJsonList rest

/-- Comma-separated `repr` of the entries of a decoded JSON object. -/
def pyStrOfJsonFields : List (List Char × Json) → List Char
  | [] => []
  | [(k, v)] => singleQuote :: (k ++ [singleQuote]) ++ ": ".data ++ pyStrOfJson v
  | (k, v) :: rest =>
    singleQuote :: (k ++ [singleQuote]) ++ ": ".data ++ pyStrOfJson v ++ ", ".data
      ++ pyStrOfJsonFields rest

end

/-! ## Token usage (`utils/token_usage.py`) -/

/-- Token counts from a single agent run (`TokenUsage` dataclass). -/
structure TokenUsage where
  input_tokens : Int
  output_tokens : Int
  cache_read_tokens : Int
  cache_creation_tokens : Int
deriving Repr, DecidableEq

/-- Derived total of a single run: input plus output tokens only. -/
def TokenUsage.total_tokens (u : TokenUsage) : Int :=
  u.input_tokens + u.output_tokens

/-- Accumulated token usage across iterations (`TokenUsageTracker`
dataclass). -/
structure TokenUsageTracker where
  total_input_tokens : Int
  total_output_tokens : Int
  total_cache_read_tokens : Int
  total_cache_creation_tokens : Int
  iteration_count : Nat
  usages : List TokenUsage
deriving Repr, DecidableEq

/-- A fresh tracker (`TokenUsageTracker()` with all defaults). -/
def TokenUsageTracker.empty : TokenUsageTracker :=
  ⟨0, 0, 0, 0, 0, []⟩

/-- `TokenUsageTracker.add_usage`. -/
def TokenUsageTracker.add_usage (t : TokenUsageTracker) (u : TokenUsage) : TokenUsageTracker where
  total_input_tokens := t.total_input_tokens + u.input_tokens
  total_output_tokens := t.total_output_tokens + u.output_tokens
  total_cache_read_tokens := t.total_cache_read_tokens + u.cache_read_tokens
  total_cache_creation_tokens := t.total_cache_creation_tokens + u.cache_creation_tokens
  iteration_count := t.iteration_count + 1
  usages := t.usages ++ [u]

/-- JSON object key `"usage"`. -/
def kUsage : List Char := "usage".data

/-- JSON object key `"result"`. -/
def kResult : List Char := "result".data

/-- JSON object key `"input_tokens"`. -/
def kInputTokens : List Char := "input_tokens".data

/-- JSON object key `"output_tokens"`. -/
def kOutputTokens : List Char := "output_tokens".data

/-- JSON object key `"cache_read_input_tokens"`. -/
def kCacheReadInput : List Char := "cache_read_input_tokens".data

/-- JSON object key `"cache_creation_input_tokens"`. -/
def kCacheCreationInput : List Char := "cache_creation_input_tokens".data

/-- The `usage_data` selection of `parse_token_usage`: `json_data["usage"]`
when present and a dict, else `json_data["result"]["usage"]` when `result` is
a dict with a dict `usage` entry, else nothing. -/
def find_usage_data (fields : List (List Char × Json)) : Option (List (List Char × Json)) :=
  match jsonLookup fields kUsage with
  | some (.obj usageFields) => some usageFields
  | _ =>
    match jsonLookup fields kResult with
    | some (.obj resultFields) =>
      match jsonLookup resultFields kUsage with
      | some (.obj usageFields) => some usageFields
      | _ => none
    | _ => none

/-- `parse_token_usage(json_data)`: extracts token counts from a decoded JSON
dict (the function is only called on values that passed
`isinstance(data, dict)`), returning `None` when no usage object is found or
when the extracted input and output counts are both zero. -/
def parse_token_usage (fields : List (List Char × Json)) : Option TokenUsage :=
  match find_usage_data fields with
  | none => none
  | some u =>
    let input_tokens := jsonLookupD u kInputTokens (Json.num 0)
    let output_tokens := jsonLookupD u kOutputTokens (Json.num 0)
    let cache_read := jsonLookupD u kCacheReadInput (Json.num 0)
    let cache_creation := jsonLookupD u kCacheCreationInput (Json.num 0)
    if pyEqZero input_tokens && pyEqZero output_tokens then none
    else
      some ⟨jsonAsInt input_tokens, jsonAsInt output_tokens,
            jsonAsInt cache_read, jsonAsInt cache_creation⟩

/-! ## Marker detection shared by both agents -/

/-- Least index `≥ i` (in the original string) at which `pat` occurs in the
suffix `s`; scanning helper for `findMarker`. -/
def findIdxAux (pat : List Char) : List Char → Nat → Option Nat
  | [], i => if pat.isPrefixOf ([] : List Char) then some i else none
  | c :: rest, i =>
    if pat.isPrefixOf (c :: rest) then some i else findIdxAux pat rest (i + 1)

/-- `re.search(openTag + "(.*?)" + closeTag, s, re.DOTALL)`, returning the
content of the group: the regex engine takes the leftmost occurrence of
`openTag` that is followed (anywhere later) by `closeTag`, and the non-greedy
group ends at the first `closeTag` after that opening tag.  If the leftmost
occurrence of `openTag` has no `closeTag` after it then no later occurrence
has one either, so the search fails. -/
def findMarker (openTag closeTag s : List Char) : Option (List Char) :=
  match findIdxAux openTag s 0 with
  | none => none
  | some i =>
    let rest := s.drop (i + openTag.length)
    match findIdxAux closeTag rest 0 with
    | none => none
    | some k => some (rest.take k)

/-- The `<Completed>` opening tag. -/
def completedOpenTag : List Char := "<Completed>".data

/-- The `</Completed>` closing tag. -/
def completedCloseTag : List Char := "</Completed>".data

/-- The `<Improved>` opening tag. -/
def improvedOpenTag : List Char := "<Improved>".data

/-- The `</Improved>` closing tag. -/
def improvedCloseTag : List Char := "</Improved>".data

/-- Marker kind returned by `parse_output` (the Python code uses the strings
`"completed"` and `"improved"`; absence is `None`). -/
inductive MarkerKind where
  | completed : MarkerKind
  | improved : MarkerKind
deriving Repr, DecidableEq

/-- The normalized result quadruple
`(marker_type, output_message, summary, token_usage)` of `parse_output`. -/
structure ParseResult where
  marker : Option MarkerKind
  output_message : Option (List Char)
  summary : List Char
  token_usage : Option TokenUsage
deriving Repr, DecidableEq

/-- The fixed sentinel `"No output captured"`. -/
def noOutputSentinel : List Char := "No output captured".data

/-- The separator used by `" ".join`. -/
def spaceSep : List Char := " ".data

/-- Python's `" ".join(parts)`. -/
def joinSpace : List (List Char) → List Char
  | [] => []
  | [l] => l
  | l :: rest => l ++ spaceSep ++ joinSpace rest

/-- The non-empty stripped lines of a text:
`[line.strip() for line in text.split("\n") if line.strip()]`. -/
def pyLines (text : List Char) : List (List Char) :=
  ((pySplitNl text).map pyStrip).filter (fun l => !l.isEmpty)

/-- `_extract_fallback_summary` (defined identically in `ClaudeAgent` and
`OpenCodeAgent`): the last up to three non-empty stripped lines joined with
spaces and truncated to 500 characters, or the fixed sentinel when there is
no non-empty line. -/
def extract_fallback_summary (text : List Char) : List Char :=
  let lines := pyLines text
  if lines.isEmpty then noOutputSentinel
  else
    let summary_lines := if 3 < lines.length then lines.drop (lines.length - 3) else lines
    (joinSpace summary_lines).take 500

/-! ## `ClaudeAgent.parse_output` (`utils/agents/claude.py`) -/

/-- JSON object key `"text"`. -/
def kText : List Char := "text".data

/-- The `text_content` extracted from the `result` entry of the decoded Claude
CLI JSON: the string itself when `result` is a string;
`result.get("text", str(result))` when it is a dict (a non-string `"text"`
value would make the subsequent `re.search` raise `TypeError` in Python and is
outside the CLI's output schema; the model falls back to `str(result)` in that
case as well); the empty transcript otherwise. -/
def textFromResult (result : Json) : List Char :=
  match result with
  | .str s => s
  | .obj resultFields =>
    match jsonLookup resultFields kText with
    | some (.str s) => s
    | _ => pyStrOfJson (.obj resultFields)
  | _ => []

/-- The JSON-decoding stage of `ClaudeAgent.parse_output`: the pair
`(text_content, token_usage)` after the `try`/`except` block.  `loads` is the
model of `json.loads`; `none` stands for a `JSONDecodeError`, which makes the
code treat the whole raw output as text. -/
def claude_scan (loads : List Char → Option Json) (raw : List Char) :
    List Char × Option TokenUsage :=
  match loads raw with
  | none => (raw, none)
  | some (.obj fields) =>
    (textFromResult (jsonLookupD fields kResult (Json.str [])), parse_token_usage fields)
  | some _ => ([], none)

/-- `ClaudeAgent.parse_output`: decode the raw output, search the transcript
for `<Completed>` first, then `<Improved>`, and otherwise fall back to the
extracted summary. -/
def ClaudeAgent.parse_output (loads : List Char → Option Json) (raw : List Char) : ParseResult :=
  match findMarker completedOpenTag completedCloseTag (claude_scan loads raw).1 with
  | some inner =>
    ⟨some .completed, some (pyStrip inner), pyStrip inner, (claude_scan loads raw).2⟩
  | none =>
    match findMarker improvedOpenTag improvedCloseTag (claude_scan loads raw).1 with
    | some inner =>
      ⟨some .improved, some (pyStrip inner), pyStrip inner, (claude_scan loads raw).2⟩
    | none =>
      ⟨none, none, extract_fallback_summary (claude_scan loads raw).1, (claude_scan loads raw).2⟩

/-! ## `OpenCodeAgent.parse_output` (`utils/agents/opencode.py`) -/

/-- JSON object key `"type"`. -/
def kType : List Char := "type".data

/-- JSON object key `"part"`. -/
def kPart : List Char := "part".data

/-- JSON object key `"tokens"`. -/
def kTokens : List Char := "tokens".data

/-- JSON object key `"input"`. -/
def kInput : List Char := "input".data

/-- JSON object key `"output"`. -/
def kOutput : List Char := "output".data

/-- JSON object key `"cache"`. -/
def kCache : List Char := "cache".data

/-- JSON object key `"read"`. -/
def kRead : List Char := "read".data

/-- JSON object key `"write"`. -/
def kWrite : List Char := "write".data

/-- The event type string `"text"`. -/
def evText : List Char := "text".data

/-- The event type string `"step_finish"`. -/
def evStepFinish : List Char := "step_finish".data

/-- The token-usage extraction of the `step_finish` branch of
`OpenCodeAgent.parse_output`, for one decoded event object: `part.tokens`
must be truthy, and a `TokenUsage` is built only when the input or output
count is truthy. -/
def lineStepFinishUsage (fields : List (List Char × Json)) : Option TokenUsage :=
  match jsonLookupD fields kPart (Json.obj []) with
  | .obj partFields =>
    let tokens := jsonLookupD partFields kTokens (Json.obj [])
    if pyTruthy tokens then
      let input_tokens := jsonGetD tokens kInput (Json.num 0)
      let output_tokens := jsonGetD tokens kOutput (Json.num 0)
      let cache_info := jsonGetD tokens kCache (Json.obj [])
      let cache_read :=
        match cache_info with
        | .obj cacheFields => jsonLookupD cacheFields kRead (Json.num 0)
        | _ => Json.num 0
      let cache_write :=
        match cache_info with
        | .obj cacheFields => jsonLookupD cacheFields kWrite (Json.num 0)
        | _ => Json.num 0
      if pyTruthy input_tokens || pyTruthy output_tokens then
        some ⟨jsonAsInt input_tokens, jsonAsInt output_tokens,
              jsonAsInt cache_read, jsonAsInt cache_write⟩
      else none
    else none
  | _ => none

/-- One pass of the NDJSON loop body of `OpenCodeAgent.parse_output`,
accumulating `(text_content, token_usage)` over one line. -/
def opencodeLineStep (loads : List Char → Option Json) (acc : List Char × Option TokenUsage)
    (line : List Char) : List Char × Option TokenUsage :=
  let text := acc.1
  let tu := acc.2
  if (pyStrip line).isEmpty then acc
  else
    match loads line with
    | none => (text ++ line ++ ['\n'], tu)
    | some (.obj fields) =>
      match jsonLookup fields kType with
      | some (.str t) =>
        if t = evText then
          match jsonLookupD fields kPart (Json.obj []) with
          | .obj partFields =>
            match jsonLookupD partFields kText (Json.str []) with
            | .str s => if s.isEmpty then (text, tu) else (text ++ s, tu)
            | _ => (text, tu)
          | _ => (text, tu)
        else if t = evStepFinish then
          match tu with
          | some u => (text, some u)
          | none => (text, lineStepFinishUsage fields)
        else (text, tu)
      | _ => (text, tu)
    | some _ => (text, tu)

/-- The NDJSON scanning stage of `OpenCodeAgent.parse_output`: split the
stripped raw output into lines, fold the loop body over them, and fall back
to the whole raw output when no text was extracted. -/
def opencode_scan (loads : List Char → Option Json) (raw : List Char) :
    List Char × Option TokenUsage :=
  let lines := pySplitNl (pyStrip raw)
  let acc := lines.foldl (opencodeLineStep loads) ([], none)
  (if acc.1.isEmpty then raw else acc.1, acc.2)

/-- The `summary_text` selection of the no-marker path of
`OpenCodeAgent.parse_output`: the raw output when the extracted text starts
with a brace (`text_content.startswith("{")`), the extracted text
otherwise. -/
def opencodeSummaryText (text raw : List Char) : List Char :=
  match text with
  | c :: _ => if c = lbrace then raw else text
  | [] => text

/-- `OpenCodeAgent.parse_output`: NDJSON scan, then the same two-marker search
as the Claude agent; on the no-marker path the fallback summary is taken from
`opencodeSummaryText`. -/
def OpenCodeAgent.parse_output (loads : List Char → Option Json) (raw : List Char) :
    ParseResult :=
  match findMarker completedOpenTag completedCloseTag (opencode_scan loads raw).1 with
  | some inner =>
    ⟨some .completed, some (pyStrip inner), pyStrip inner, (opencode_scan loads raw).2⟩
  | none =>
    match findMarker improvedOpenTag improvedCloseTag (opencode_scan loads raw).1 with
    | some inner =>
      ⟨some .improved, some (pyStrip inner), pyStrip inner, (opencode_scan loads raw).2⟩
    | none =>
      ⟨none, none,
       extract_fallback_summary (opencodeSummaryText (opencode_scan loads raw).1 raw),
       (opencode_scan loads raw).2⟩

/-- The per-line token-usage contribution of one NDJSON line, independent of
the accumulator: `none` for blank lines, undecodable lines, non-dict events,
non-`step_finish` events and `step_finish` events whose extraction sets
nothing. -/
def opencodeLineUsage (loads : List Char → Option Json) (line : List Char) :
    Option TokenUsage :=
  if (pyStrip line).isEmpty then none
  else
    match loads line with
    | some (.obj fields) =>
      match jsonLookup fields kType with
      | some (.str t) =>
        if t = evText then none
        else if t = evStepFinish then lineStepFinishUsage fields
        else none
      | _ => none
    | _ => none

/-! ## Loop state and interactive prompts (`utils/interactive.py`) -/

/-- Status of an agent run (`RunStatus` enum in `utils/agents/base.py`). -/
inductive RunStatus where
  | improved : RunStatus
  | completed : RunStatus
  | timeout : RunStatus
  | process_error : RunStatus
  | missing_marker : RunStatus
deriving Repr, DecidableEq

/-- The `.value` string of a `RunStatus` member. -/
def RunStatus.value : RunStatus → List Char
  | .improved => "improved".data
  | .completed => "completed".data
  | .timeout => "timeout".data
  | .process_error => "process_error".data
  | .missing_marker => "missing_marker".data

/-- Result of one call to `run_agent_iteration` (`AgentRunResult` dataclass;
the wall-clock `duration_seconds` field is a float used only for display and
is not modelled). -/
structure AgentRunResult where
  status : RunStatus
  output_message : List Char
  summary : List Char
  raw_output : List Char
  return_code : Option Int := none
  error_message : Option (List Char) := none
  token_usage : Option TokenUsage := none

/-- Mutable state of the iteration loop (`LoopState` dataclass). -/
@[ext]
structure LoopState where
  plan_text : List Char
  total_iterations : Nat
  agent_type : List Char
  current_iteration : Nat
  skip_prompts : Bool
  cancelled : Bool
  token_tracker : TokenUsageTracker

/-- One completed edit choice inside the edit sub-menu.  The payload is the
value returned by the corresponding prompt helper: `none` models a cancelled
or empty entry (which keeps the previous value).  `prompt_new_iteration_count`
validates its input and only returns a non-negative count, hence `Nat`. -/
inductive EditAction where
  | changePlanText (newPlan : Option (List Char)) : EditAction
  | changePlanFile (newPlan : Option (List Char)) : EditAction
  | changeIterations (newRemaining : Option Nat) : EditAction
  | changeAgent (newAgent : Option (List Char)) : EditAction

/-- Effect of one edit choice on the loop state (choices 1–4 of
`prompt_edit_menu`).  The plan and agent branches guard with Python
truthiness (`if new_plan:` / `if new_agent:`), the iteration branch with
`if new_remaining is not None:` and sets
`total_iterations = current_iteration + new_remaining`. -/
def apply_edit_action (s : LoopState) (a : EditAction) : LoopState :=
  match a with
  | .changePlanText (some p) => if p.isEmpty then s else { s with plan_text := p }
  | .changePlanText none => s
  | .changePlanFile (some p) => if p.isEmpty then s else { s with plan_text := p }
  | .changePlanFile none => s
  | .changeIterations (some r) => { s with total_iterations := s.current_iteration + r }
  | .changeIterations none => s
  | .changeAgent (some a) => if a.isEmpty then s else { s with agent_type := a }
  | .changeAgent none => s

/-- The sequence of edit choices made before the user picks a terminator. -/
def apply_edit_actions (s : LoopState) (edits : List EditAction) : LoopState :=
  edits.foldl apply_edit_action s

/-- `prompt_edit_menu`: stores the original plan text, iteration count and
agent tag on entry, applies the scripted edit choices, and then either
confirms (choice 5, keeping the edits, returning `True`) or cancels
(choice 6, restoring all three stored values, returning `False`). -/
def prompt_edit_menu (edits : List EditAction) (confirm : Bool) (s : LoopState) :
    Bool × LoopState :=
  let edited := apply_edit_actions s edits
  if confirm then (true, edited)
  else
    (false,
     { edited with
        plan_text := s.plan_text
        total_iterations := s.total_iterations
        agent_type := s.agent_type })

/-- One selection in the main inter-iteration menu of `get_user_decision`.
An edit selection carries the scripted behaviour of the edit sub-menu. -/
inductive MainAction where
  | cont : MainAction
  | editSettings (edits : List EditAction) (confirm : Bool) : MainAction
  | skipFuture : MainAction
  | cancelRun : MainAction

/-- `get_user_decision`: handle main-menu selections until one of them
returns.  A cancelled edit sub-menu loops back to the main menu.  An
exhausted script corresponds to the user finally selecting continue. -/
def get_user_decision : List MainAction → LoopState → LoopState
  | [], s => s
  | a :: rest, s =>
    match a with
    | .cont => s
    | .cancelRun => { s with cancelled := true }
    | .skipFuture => { s with skip_prompts := true }
    | .editSettings edits confirm =>
      let r := prompt_edit_menu edits confirm s
      if r.1 then r.2 else get_user_decision rest r.2

/-! ## Loop controllers (`cli.py`) -/

/-- Lines 67–69 of `cli.py` (and 168–170 for the endless loop): add the
iteration's token usage to the tracker when present (`TokenUsage` instances
are always truthy in Python). -/
def track_usage (s : LoopState) (result : AgentRunResult) : LoopState :=
  match result.token_usage with
  | some u => { s with token_tracker := s.token_tracker.add_usage u }
  | none => s

/-- Decimal digits of a natural number, for the interpolated messages. -/
def natStr (n : Nat) : List Char :=
  (Nat.repr n).data

/-- `f"Task completed in {i} iteration{'s' if i > 1 else ''}"`. -/
def completed_message (i : Nat) : List Char :=
  "Task completed in ".data ++ natStr i ++ " iteration".data ++ (if 1 < i then "s".data else [])

/-- `result.error_message or result.status.value` (an empty error message is
falsy in Python). -/
def error_detail (result : AgentRunResult) : List Char :=
  match result.error_message with
  | some m => if m.isEmpty then result.status.value else m
  | none => result.status.value

/-- `f"Stopped at iteration {i} due to: {error_detail}"`. -/
def stopped_message (i : Nat) (detail : List Char) : List Char :=
  "Stopped at iteration ".data ++ natStr i ++ " due to: ".data ++ detail

/-- `f"Cancelled by user after {i} iteration{'s' if i > 1 else ''}"`. -/
def cancelled_message (i : Nat) : List Char :=
  "Cancelled by user after ".data ++ natStr i ++ " iteration".data
    ++ (if 1 < i then "s".data else [])

/-- `f"Ran {total_iterations} iterations without completing"`. -/
def exhausted_message (n : Nat) : List Char :=
  "Ran ".data ++ natStr n ++ " iterations without completing".data

/-- `run_loop`, the bounded-mode controller.  `outcome i` is the
`AgentRunResult` that `run_agent_iteration` produces on the `i`-th iteration
(1-based), `scripts i` the user's scripted menu choices after iteration `i`,
and `can_prompt` the value of `interactive and is_interactive_terminal()`.
The `while` loop is driven by `fuel`; `none` means the fuel ran out before
the loop returned (with enough fuel the bounded loop always returns).  The
returned quadruple extends the source's `(iterations_run, status, message)`
with the final `LoopState`, which the Python caller observes by mutation. -/
def run_loop (outcome : Nat → AgentRunResult) (scripts : Nat → List MainAction)
    (can_prompt : Bool) : Nat → LoopState → Option (Nat × RunStatus × List Char × LoopState)
  | 0, s =>
    if s.current_iteration < s.total_iterations then none
    else some (s.total_iterations, .improved, exhausted_message s.total_iterations, s)
  | fuel + 1, s =>
    if s.current_iteration < s.total_iterations then
      let s1 := { s with current_iteration := s.current_iteration + 1 }
      let i := s1.current_iteration
      let result := outcome i
      let s2 := track_usage s1 result
      match result.status with
      | .completed => some (i, .completed, completed_message i, s2)
      | .timeout => some (i, .timeout, stopped_message i (error_detail result), s2)
      | .process_error =>
        some (i, .process_error, stopped_message i (error_detail result), s2)
      | .missing_marker =>
        some (i, .missing_marker, stopped_message i (error_detail result), s2)
      | .improved =>
        let is_last := s2.total_iterations ≤ s2.current_iteration
        if can_prompt && !s2.skip_prompts && !is_last then
          let s3 := get_user_decision (scripts i) s2
          if s3.cancelled then some (i, .improved, cancelled_message i, s3)
          else run_loop outcome scripts can_prompt fuel s3
        else run_loop outcome scripts can_prompt fuel s2
    else some (s.total_iterations, .improved, exhausted_message s.total_iterations, s)

/-- The consecutive-error counter update of `run_endless_loop`: COMPLETED,
IMPROVED and MISSING_MARKER reset the counter to zero, TIMEOUT and
PROCESS_ERROR increment it. -/
def endless_consecutive_update (status : RunStatus) (c : Nat) : Nat :=
  match status with
  | .timeout => c + 1
  | .process_error => c + 1
  | _ => 0

/-- Whether a status counts towards the consecutive-error threshold. -/
def is_consecutive_error (status : RunStatus) : Bool :=
  match status with
  | .timeout => true
  | .process_error => true
  | _ => false

/-- `f"Ran {m} iteration{'s' if m > 1 else ''} (max_iterations reached)"`. -/
def max_iterations_message (m : Nat) : List Char :=
  "Ran ".data ++ natStr m ++ " iteration".data ++ (if 1 < m then "s".data else [])
    ++ " (max_iterations reached)".data

/-- `f"Stopped at iteration {i} after {c} consecutive errors"`. -/
def consecutive_errors_message (i c : Nat) : List Char :=
  "Stopped at iteration ".data ++ natStr i ++ " after ".data ++ natStr c
    ++ " consecutive errors".data

/-- `run_endless_loop`: the endless-mode controller (the `KeyboardInterrupt`
handler is an external signal and is not modelled).  As for `run_loop`,
`outcome` is the per-iteration oracle and `fuel` drives the unbounded
`while True`; the final `LoopState` is appended to the returned triple. -/
def run_endless_loop (outcome : Nat → AgentRunResult) (max_iterations : Option Nat)
    (max_consecutive_errors : Nat) :
    Nat → LoopState → Nat → Option (Nat × RunStatus × List Char × LoopState)
  | 0, _, _ => none
  | fuel + 1, s, consecutive_errors =>
    let s1 := { s with current_iteration := s.current_iteration + 1 }
    let i := s1.current_iteration
    if (match max_iterations with | some m => decide (m < i) | none => false) then
      some (i - 1, .improved,
            max_iterations_message (match max_iterations with | some m => m | none => 0), s1)
    else
      let result := outcome i
      let s2 := track_usage s1 result
      let c := endless_consecutive_update result.status consecutive_errors
      if is_consecutive_error result.status && decide (max_consecutive_errors ≤ c) then
        some (i, result.status, consecutive_errors_message i c, s2)
      else run_endless_loop outcome max_iterations max_consecutive_errors fuel s2 c

/-- The exit-code mapping at the end of the `run` command: COMPLETED exits 0,
IMPROVED (iterations exhausted or user cancellation) exits 2, and TIMEOUT,
PROCESS_ERROR and MISSING_MARKER exit 1. -/
def run_exit_code (status : RunStatus) : Nat :=
  match status with
  | .completed => 0
  | .improved => 2
  | _ => 1

/-! ## Helper lemmas -/

/-! ## Claim theorems -/

/-- A raw output containing an `<Improved>` span before a `<Completed>`
span. -/
def c1Raw : List Char := "<Improved>first</Improved><Completed>done</Completed>".data

/-- The trimmed inner text of the completed span of `c1Raw`. -/
def c1Completed : List Char := "done".data

/-- The trimmed inner text of the improved span of `c1Raw`. -/
def c1Improved : List Char := "first".data

/-- A decoder that fails on every line, making both adapters treat `c1Raw` as
plain text. -/
def noLoads : List Char → Option Json := fun _ => none

/-- A raw output containing two completed markers in a row. -/
def c8Raw : List Char := "<Completed>a</Completed><Completed>b</Completed>".data

/-- The inner text of the first completed marker of `c8Raw`. -/
def c8First : List Char := "a".data

/-- The part of `c8Raw` before the first marker (empty). -/
def c8Prefix : List Char := []

/-- The part of `c8Raw` after the first marker: the second marker. -/
def c8Rest : List Char := "<Completed>b</Completed>".data

/-- A plain-text raw output without markers. -/
def c5Raw : List Char := "working on it\nstill going".data

/-- A whitespace-only text. -/
def c5Blank : List Char := "  \n \t ".data

/-- The raw output `"{}"` of the C10 witness. -/
def c10Raw : List Char := "\x7b\x7d".data

/-- A decoder mapping `c10Raw` to the empty JSON object. -/
def c10Loads : List Char → Option Json :=
  fun l => if l = c10Raw then some (Json.obj []) else none

/-- A decoded Claude JSON document whose usage object has a nonzero input
count, no output count, and a nonzero cache counter. -/
def c3Partial : List (List Char × Json) :=
  [(kUsage, Json.obj [(kInputTokens, Json.num 5), (kCacheReadInput, Json.num 9)])]

/-- The usage object of `c3Partial`. -/
def c3PartialUsage : List (List Char × Json) :=
  [(kInputTokens, Json.num 5), (kCacheReadInput, Json.num 9)]

/-- A decoded Claude JSON document whose usage object carries only a nonzero
cache counter. -/
def c3CacheOnly : List (List Char × Json) :=
  [(kUsage, Json.obj [(kCacheReadInput, Json.num 9)])]

/-- The usage object of `c3CacheOnly`. -/
def c3CacheOnlyUsage : List (List Char × Json) :=
  [(kCacheReadInput, Json.num 9)]

/-- First NDJSON line of the C4 counterexample: a `step_finish` event whose
tokens object has zero input and output counts. -/
def c4Line1 : List Char :=
  "\x7b\"type\": \"step_finish\", \"part\": \x7b\"tokens\": \x7b\"input\": 0, \"output\": 0\x7d\x7d\x7d".data

/-- Second NDJSON line of the C4 counterexample: a `step_finish` event with
nonzero counts. -/
def c4Line2 : List Char :=
  "\x7b\"type\": \"step_finish\", \"part\": \x7b\"tokens\": \x7b\"input\": 5, \"output\": 7\x7d\x7d\x7d".data

/-- Decoded form of `c4Line1`. -/
def c4Fields1 : List (List Char × Json) :=
  [(kType, Json.str evStepFinish),
   (kPart, Json.obj [(kTokens, Json.obj [(kInput, Json.num 0), (kOutput, Json.num 0)])])]

/-- Decoded form of `c4Line2`. -/
def c4Fields2 : List (List Char × Json) :=
  [(kType, Json.str evStepFinish),
   (kPart, Json.obj [(kTokens, Json.obj [(kInput, Json.num 5), (kOutput, Json.num 7)])])]

/-- A decoder behaving like `json.loads` on the two counterexample lines. -/
def c4Loads : List Char → Option Json := fun l =>
  if l = c4Line1 then some (Json.obj c4Fields1)
  else if l = c4Line2 then some (Json.obj c4Fields2)
  else none

/-- The two-line NDJSON raw output of the C4 counterexample. -/
def c4Raw : List Char := c4Line1 ++ ['\n'] ++ c4Line2

/-- The outcome oracle of the C7 witness: every iteration reports
completion. -/
def c7Outcome : Nat → AgentRunResult :=
  fun _ => { status := RunStatus.completed, output_message := [], summary := [],
             raw_output := [] }

/-- Initial loop state of the C7 witness: 2 iterations budgeted, none run. -/
def c7State : LoopState :=
  { plan_text := [], total_iterations := 2, agent_type := "claude".data,
    current_iteration := 0, skip_prompts := false, cancelled := false,
    token_tracker := TokenUsageTracker.empty }

/-- Final loop state of the C7 witness run. -/
def c7Final : LoopState :=
  { plan_text := [], total_iterations := 2, agent_type := "claude".data,
    current_iteration := 1, skip_prompts := false, cancelled := false,
    token_tracker := TokenUsageTracker.empty }

/-- Whether `pat` occurs as a contiguous substring of `s` (Python's
`pat in s`), via the same scanning helper as the marker search. -/
def containsSubstring (pat s : List Char) : Bool :=
  (findIdxAux pat s 0).isSome

/-- The outcome oracle of the C2 witness: every iteration times out. -/
def c2Outcome : Nat → AgentRunResult :=
  fun _ => { status := RunStatus.timeout, output_message := [],
             summary := "Process timed out".data, raw_output := [],
             error_message := some "Process timed out after 300.0 seconds".data }

/-- Initial loop state of the C2 witness (the endless command budgets 999999
iterations when no cap is given). -/
def c2State : LoopState :=
  { plan_text := [], total_iterations := 999999, agent_type := "claude".data,
    current_iteration := 0, skip_prompts := false, cancelled := false,
    token_tracker := TokenUsageTracker.empty }

/-- The outcome oracle of the C9 witness: every iteration reports partial
progress. -/
def c9Outcome : Nat → AgentRunResult :=
  fun _ => { status := RunStatus.improved, output_message := "step".data,
             summary := "step".data, raw_output := [] }

/-- The user script of the C9 witness: cancel at the first prompt. -/
def c9Scripts : Nat → List MainAction :=
  fun _ => [MainAction.cancelRun]

/-- Initial loop state of the C9 witness: 3 iterations budgeted. -/
def c9State : LoopState :=
  { plan_text := [], total_iterations := 3, agent_type := "claude".data,
    current_iteration := 0, skip_prompts := false, cancelled := false,
    token_tracker := TokenUsageTracker.empty }

theorem pySplitNl_ne_nil (t : List Char) : pySplitNl t ≠ [] := by
  induction t with
  | nil => simp [pySplitNl]
  | cons c rest ih =>
    simp only [pySplitNl]
    split
    · simp
    · split <;> simp

theorem mem_of_mem_pySplitNl {t : List Char} {p : List Char} (hp : p ∈ pySplitNl t)
    {c : Char} (hc : c ∈ p) : c ∈ t := by
  induction t generalizing p with
  | nil =>
    simp [pySplitNl] at hp
    subst hp
    simp at hc
  | cons a rest ih =>
    by_cases ha : a = '\n'
    · rw [pySplitNl, if_pos ha] at hp
      rcases List.mem_cons.mp hp with h | h
      · subst h; simp at hc
      · exact List.mem_cons_of_mem _ (ih h hc)
    · rw [pySplitNl, if_neg ha] at hp
      rcases hrest : pySplitNl rest with _ | ⟨p0, ps⟩
      · exact absurd hrest (pySplitNl_ne_nil rest)
      · rw [hrest] at hp
        rcases List.mem_cons.mp hp with h | h
        · subst h
          rcases List.mem_cons.mp hc with h | h
          · subst h; exact List.mem_cons_self _ _
          · exact List.mem_cons_of_mem _
              (ih (hrest ▸ List.mem_cons_self p0 ps) h)
        · exact List.mem_cons_of_mem _
            (ih (hrest ▸ List.mem_cons_of_mem p0 h) hc)

theorem pyStrip_eq_nil {s : List Char} (h : ∀ c ∈ s, pyIsSpace c = true) : pyStrip s = [] := by
  unfold pyStrip
  rw [List.dropWhile_eq_nil_iff.mpr h]
  rfl

theorem pyLines_eq_nil {t : List Char} (h : ∀ c ∈ t, pyIsSpace c = true) : pyLines t = [] := by
  unfold pyLines
  rw [List.filter_eq_nil_iff]
  intro l hl
  rw [List.mem_map] at hl
  obtain ⟨p, hp, rfl⟩ := hl
  have hps : pyStrip p = [] :=
    pyStrip_eq_nil (fun c hc => h c (mem_of_mem_pySplitNl hp hc))
  simp [hps]

theorem ne_nil_of_mem_pyLines {t l : List Char} (h : l ∈ pyLines t) : l ≠ [] := by
  unfold pyLines at h
  have := (List.mem_filter.mp h).2
  simpa using this

theorem joinSpace_ne_nil {ls : List (List Char)} (hne : ls ≠ [])
    (h : ∀ l ∈ ls, l ≠ []) : joinSpace ls ≠ [] := by
  match ls with
  | [] => exact absurd rfl hne
  | [l] => simpa [joinSpace] using h l (List.mem_cons_self _ _)
  | l :: l2 :: rest =>
    have hl : l ≠ [] := h l (List.mem_cons_self _ _)
    simp [joinSpace, hl]

/-- Unfolded form of `extract_fallback_summary` (the `let` bindings of the
definition inlined). -/
theorem extract_fallback_summary_eq (text : List Char) :
    extract_fallback_summary text =
      if (pyLines text).isEmpty then noOutputSentinel
      else
        (joinSpace
          (if 3 < (pyLines text).length then
            (pyLines text).drop ((pyLines text).length - 3)
          else pyLines text)).take 500 := rfl

theorem extract_fallback_summary_ne_nil (text : List Char) :
    extract_fallback_summary text ≠ [] := by
  rw [extract_fallback_summary_eq]
  by_cases hemp : (pyLines text).isEmpty = true
  · rw [if_pos hemp]
    decide
  · rw [if_neg hemp]
    have hne : pyLines text ≠ [] := by
      intro h
      rw [h] at hemp
      exact hemp rfl
    have key : ∀ sl : List (List Char), sl ≠ [] → (∀ l ∈ sl, l ∈ pyLines text) →
        (joinSpace sl).take 500 ≠ [] := by
      intro sl hslne hsub htake
      rcases List.take_eq_nil_iff.mp htake with h5 | h5
      · norm_num at h5
      · exact joinSpace_ne_nil hslne (fun l hl => ne_nil_of_mem_pyLines (hsub l hl)) h5
    by_cases h3 : 3 < (pyLines text).length
    · rw [if_pos h3]
      refine key _ ?_ (fun l hl => List.mem_of_mem_drop hl)
      intro hd
      have := congrArg List.length hd
      rw [List.length_drop] at this
      simp at this
      omega
    · rw [if_neg h3]
      exact key _ hne (fun l hl => hl)

theorem extract_fallback_summary_length_le (text : List Char) :
    (extract_fallback_summary text).length ≤ 500 := by
  rw [extract_fallback_summary_eq]
  split
  · decide
  · rw [List.length_take]
    exact min_le_left _ _

theorem extract_fallback_summary_whitespace {text : List Char}
    (h : ∀ c ∈ text, pyIsSpace c = true) :
    extract_fallback_summary text = noOutputSentinel := by
  unfold extract_fallback_summary
  simp [pyLines_eq_nil h]

theorem opencodeLineStep_snd (loads : List Char → Option Json) (text : List Char)
    (tu : Option TokenUsage) (line : List Char) :
    (opencodeLineStep loads (text, tu) line).2 =
      match tu with
      | some u => some u
      | none => opencodeLineUsage loads line := by
  cases tu with
  | some u =>
    simp only [opencodeLineStep]
    repeat' split
    all_goals rfl
  | none =>
    simp only [opencodeLineStep, opencodeLineUsage]
    by_cases hb : (pyStrip line).isEmpty = true
    · simp only [if_pos hb]
    · simp only [if_neg hb]
      cases hload : loads line with
      | none => rfl
      | some j =>
        cases j with
        | null => rfl
        | bool b => rfl
        | num n => rfl
        | str s => rfl
        | arr elements => rfl
        | obj fields =>
          dsimp only
          cases hty : jsonLookup fields kType with
          | none => rfl
          | some v =>
            cases v with
            | null => rfl
            | bool b => rfl
            | num n => rfl
            | arr elements => rfl
            | obj f2 => rfl
            | str t =>
              dsimp only
              by_cases ht : t = evText
              · simp only [if_pos ht]
                repeat' split
                all_goals rfl
              · simp only [if_neg ht]
                by_cases hs : t = evStepFinish
                · simp only [if_pos hs]
                · simp only [if_neg hs]

theorem foldl_opencodeLineStep_snd (loads : List Char → Option Json)
    (ls : List (List Char)) :
    ∀ (text : List Char) (tu : Option TokenUsage),
      (ls.foldl (opencodeLineStep loads) (text, tu)).2 =
        match tu with
        | some u => some u
        | none => ls.findSome? (opencodeLineUsage loads) := by
  induction ls with
  | nil =>
    intro text tu
    cases tu <;> simp [List.findSome?]
  | cons l rest ih =>
    intro text tu
    rw [List.foldl_cons]
    have hp : opencodeLineStep loads (text, tu) l
        = ((opencodeLineStep loads (text, tu) l).1, (opencodeLineStep loads (text, tu) l).2) := rfl
    rw [hp, ih, opencodeLineStep_snd]
    cases tu with
    | some u => rfl
    | none =>
      cases hu : opencodeLineUsage loads l <;>
        simp [List.findSome?_cons, hu]

theorem opencode_parse_output_token_usage (loads : List Char → Option Json)
    (raw : List Char) :
    (OpenCodeAgent.parse_output loads raw).token_usage = (opencode_scan loads raw).2 := by
  unfold OpenCodeAgent.parse_output
  split
  · rfl
  · split <;> rfl

theorem opencode_scan_snd (loads : List Char → Option Json) (raw : List Char) :
    (opencode_scan loads raw).2 =
      (pySplitNl (pyStrip raw)).findSome? (opencodeLineUsage loads) := by
  unfold opencode_scan
  exact foldl_opencodeLineStep_snd loads _ [] none

theorem findMarker_of_decomposition (openTag closeTag p m rest : List Char)
    (h1 : findIdxAux openTag (p ++ openTag ++ m ++ closeTag ++ rest) 0 = some p.length)
    (h2 : findIdxAux closeTag (m ++ closeTag ++ rest) 0 = some m.length) :
    findMarker openTag closeTag (p ++ openTag ++ m ++ closeTag ++ rest) = some m := by
  unfold findMarker
  rw [h1]
  have hassoc : p ++ openTag ++ m ++ closeTag ++ rest
      = (p ++ openTag) ++ (m ++ closeTag ++ rest) := by
    simp [List.append_assoc]
  have hd : (p ++ openTag ++ m ++ closeTag ++ rest).drop (p.length + openTag.length)
      = m ++ closeTag ++ rest := by
    rw [hassoc, ← List.length_append]
    exact List.drop_left _ _
  have ht : (m ++ closeTag ++ rest).take m.length = m := by
    rw [List.append_assoc]
    exact List.take_left _ _
  simp only [hd, h2, ht]

theorem apply_edit_action_fields (s : LoopState) (a : EditAction) :
    (apply_edit_action s a).current_iteration = s.current_iteration ∧
    (apply_edit_action s a).skip_prompts = s.skip_prompts ∧
    (apply_edit_action s a).cancelled = s.cancelled ∧
    (apply_edit_action s a).token_tracker = s.token_tracker := by
  cases a with
  | changePlanText p =>
    cases p with
    | none => simp [apply_edit_action]
    | some v =>
      simp only [apply_edit_action]
      split <;> simp
  | changePlanFile p =>
    cases p with
    | none => simp [apply_edit_action]
    | some v =>
      simp only [apply_edit_action]
      split <;> simp
  | changeIterations r =>
    cases r with
    | none => simp [apply_edit_action]
    | some v => simp [apply_edit_action]
  | changeAgent a =>
    cases a with
    | none => simp [apply_edit_action]
    | some v =>
      simp only [apply_edit_action]
      split <;> simp

theorem apply_edit_action_invariant (s : LoopState) (a : EditAction)
    (h : s.current_iteration ≤ s.total_iterations) :
    (apply_edit_action s a).current_iteration ≤ (apply_edit_action s a).total_iterations := by
  cases a with
  | changePlanText p =>
    cases p with
    | none => exact h
    | some v =>
      simp only [apply_edit_action]
      split <;> exact h
  | changePlanFile p =>
    cases p with
    | none => exact h
    | some v =>
      simp only [apply_edit_action]
      split <;> exact h
  | changeIterations r =>
    cases r with
    | none => exact h
    | some v => simp [apply_edit_action]
  | changeAgent a =>
    cases a with
    | none => exact h
    | some v =>
      simp only [apply_edit_action]
      split <;> exact h

theorem apply_edit_actions_fields (edits : List EditAction) :
    ∀ s : LoopState,
      (apply_edit_actions s edits).current_iteration = s.current_iteration ∧
      (apply_edit_actions s edits).skip_prompts = s.skip_prompts ∧
      (apply_edit_actions s edits).cancelled = s.cancelled ∧
      (apply_edit_actions s edits).token_tracker = s.token_tracker := by
  induction edits with
  | nil => intro s; exact ⟨rfl, rfl, rfl, rfl⟩
  | cons a rest ih =>
    intro s
    have hstep := apply_edit_action_fields s a
    have htail := ih (apply_edit_action s a)
    have he : apply_edit_actions s (a :: rest)
        = apply_edit_actions (apply_edit_action s a) rest := rfl
    rw [he]
    exact ⟨htail.1.trans hstep.1, htail.2.1.trans hstep.2.1,
           htail.2.2.1.trans hstep.2.2.1, htail.2.2.2.trans hstep.2.2.2⟩

theorem apply_edit_actions_invariant (edits : List EditAction) :
    ∀ s : LoopState, s.current_iteration ≤ s.total_iterations →
      (apply_edit_actions s edits).current_iteration
        ≤ (apply_edit_actions s edits).total_iterations := by
  induction edits with
  | nil => intro s h; exact h
  | cons a rest ih =>
    intro s h
    have he : apply_edit_actions s (a :: rest)
        = apply_edit_actions (apply_edit_action s a) rest := rfl
    rw [he]
    exact ih _ (apply_edit_action_invariant s a h)

theorem prompt_edit_menu_cancel_eq (edits : List EditAction) (s : LoopState) :
    prompt_edit_menu edits false s = (false, s) := by
  have hf := apply_edit_actions_fields edits s
  unfold prompt_edit_menu
  simp only [Bool.false_eq_true, if_false]
  refine Prod.ext rfl ?_
  show LoopState.mk s.plan_text s.total_iterations s.agent_type
      (apply_edit_actions s edits).current_iteration
      (apply_edit_actions s edits).skip_prompts
      (apply_edit_actions s edits).cancelled
      (apply_edit_actions s edits).token_tracker = s
  rw [hf.1, hf.2.1, hf.2.2.1, hf.2.2.2]

theorem prompt_edit_menu_snd_current (edits : List EditAction) (confirm : Bool)
    (s : LoopState) :
    (prompt_edit_menu edits confirm s).2.current_iteration = s.current_iteration := by
  cases confirm with
  | true => exact (apply_edit_actions_fields edits s).1
  | false => rw [prompt_edit_menu_cancel_eq]

theorem prompt_edit_menu_snd_invariant (edits : List EditAction) (confirm : Bool)
    (s : LoopState) (h : s.current_iteration ≤ s.total_iterations) :
    (prompt_edit_menu edits confirm s).2.current_iteration
      ≤ (prompt_edit_menu edits confirm s).2.total_iterations := by
  cases confirm with
  | true => exact apply_edit_actions_invariant edits s h
  | false => rw [prompt_edit_menu_cancel_eq]; exact h

theorem get_user_decision_current (script : List MainAction) :
    ∀ s : LoopState, (get_user_decision script s).current_iteration = s.current_iteration := by
  induction script with
  | nil => intro s; rfl
  | cons a rest ih =>
    intro s
    cases a with
    | cont => rfl
    | cancelRun => rfl
    | skipFuture => rfl
    | editSettings edits confirm =>
      show (if (prompt_edit_menu edits confirm s).1 then (prompt_edit_menu edits confirm s).2
            else get_user_decision rest (prompt_edit_menu edits confirm s).2).current_iteration
          = s.current_iteration
      split
      · exact prompt_edit_menu_snd_current edits confirm s
      · exact (ih _).trans (prompt_edit_menu_snd_current edits confirm s)

theorem get_user_decision_invariant (script : List MainAction) :
    ∀ s : LoopState, s.current_iteration ≤ s.total_iterations →
      (get_user_decision script s).current_iteration
        ≤ (get_user_decision script s).total_iterations := by
  induction script with
  | nil => intro s h; exact h
  | cons a rest ih =>
    intro s h
    cases a with
    | cont => exact h
    | cancelRun => exact h
    | skipFuture => exact h
    | editSettings edits confirm =>
      show (if (prompt_edit_menu edits confirm s).1 then (prompt_edit_menu edits confirm s).2
            else get_user_decision rest (prompt_edit_menu edits confirm s).2).current_iteration
          ≤ (if (prompt_edit_menu edits confirm s).1 then (prompt_edit_menu edits confirm s).2
            else get_user_decision rest (prompt_edit_menu edits confirm s).2).total_iterations
      split
      · exact prompt_edit_menu_snd_invariant edits confirm s h
      · exact ih _ (prompt_edit_menu_snd_invariant edits confirm s h)

theorem track_usage_current (s : LoopState) (r : AgentRunResult) :
    (track_usage s r).current_iteration = s.current_iteration := by
  unfold track_usage
  split <;> rfl

theorem track_usage_total (s : LoopState) (r : AgentRunResult) :
    (track_usage s r).total_iterations = s.total_iterations := by
  unfold track_usage
  split <;> rfl

theorem track_usage_cancelled (s : LoopState) (r : AgentRunResult) :
    (track_usage s r).cancelled = s.cancelled := by
  unfold track_usage
  split <;> rfl

theorem track_usage_skip (s : LoopState) (r : AgentRunResult) :
    (track_usage s r).skip_prompts = s.skip_prompts := by
  unfold track_usage
  split <;> rfl

theorem run_loop_invariant (outcome : Nat → AgentRunResult)
    (scripts : Nat → List MainAction) (can_prompt : Bool) :
    ∀ (fuel : Nat) (s : LoopState) (i : Nat) (st : RunStatus) (msg : List Char)
      (s' : LoopState),
      run_loop outcome scripts can_prompt fuel s = some (i, st, msg, s') →
      s.current_iteration ≤ s'.current_iteration ∧
      (s.current_iteration ≤ s.total_iterations →
        s'.current_iteration ≤ s'.total_iterations) := by
  intro fuel
  induction fuel with
  | zero =>
    intro s i st msg s' h
    unfold run_loop at h
    split at h
    · exact absurd h (by simp)
    · simp only [Option.some.injEq, Prod.mk.injEq] at h
      obtain ⟨-, -, -, rfl⟩ := h
      exact ⟨le_refl _, fun hi => hi⟩
  | succ f ih =>
    intro s i st msg s' h
    rw [run_loop] at h
    split at h
    case isTrue hguard =>
      dsimp only at h
      split at h
      case h_1 =>
        simp only [Option.some.injEq, Prod.mk.injEq] at h
        obtain ⟨-, -, -, rfl⟩ := h
        refine ⟨?_, fun _ => ?_⟩
        · rw [track_usage_current]; simp <;> omega
        · rw [track_usage_current, track_usage_total]; simp <;> omega
      case h_2 =>
        simp only [Option.some.injEq, Prod.mk.injEq] at h
        obtain ⟨-, -, -, rfl⟩ := h
        refine ⟨?_, fun _ => ?_⟩
        · rw [track_usage_current]; simp <;> omega
        · rw [track_usage_current, track_usage_total]; simp <;> omega
      case h_3 =>
        simp only [Option.some.injEq, Prod.mk.injEq] at h
        obtain ⟨-, -, -, rfl⟩ := h
        refine ⟨?_, fun _ => ?_⟩
        · rw [track_usage_current]; simp <;> omega
        · rw [track_usage_current, track_usage_total]; simp <;> omega
      case h_4 =>
        simp only [Option.some.injEq, Prod.mk.injEq] at h
        obtain ⟨-, -, -, rfl⟩ := h
        refine ⟨?_, fun _ => ?_⟩
        · rw [track_usage_current]; simp <;> omega
        · rw [track_usage_current, track_usage_total]; simp <;> omega
      case h_5 =>
        split at h
        case isTrue =>
          split at h
          case isTrue =>
            simp only [Option.some.injEq, Prod.mk.injEq] at h
            obtain ⟨-, -, -, rfl⟩ := h
            refine ⟨?_, fun _ => ?_⟩
            · rw [get_user_decision_current, track_usage_current]; simp <;> omega
            · apply get_user_decision_invariant
              rw [track_usage_current, track_usage_total]; simp <;> omega
          case isFalse =>
            have hrec := ih _ _ _ _ _ h
            refine ⟨le_trans ?_ hrec.1, fun hi => ?_⟩
            · rw [get_user_decision_current, track_usage_current]; simp <;> omega
            · apply hrec.2
              apply get_user_decision_invariant
              rw [track_usage_current, track_usage_total]; simp <;> omega
        case isFalse =>
          have hrec := ih _ _ _ _ _ h
          refine ⟨le_trans ?_ hrec.1, fun hi => ?_⟩
          · rw [track_usage_current]; simp <;> omega
          · apply hrec.2
            rw [track_usage_current, track_usage_total]; simp <;> omega
    case isFalse hguard =>
      simp only [Option.some.injEq, Prod.mk.injEq] at h
      obtain ⟨-, -, -, rfl⟩ := h
      exact ⟨le_refl _, fun hi => hi⟩

theorem run_loop_all_improved (outcome : Nat → AgentRunResult)
    (scripts : Nat → List MainAction) (can_prompt : Bool)
    (himp : ∀ n, (outcome n).status = .improved)
    (hscr : ∀ n, scripts n = [MainAction.cont]) :
    ∀ (fuel : Nat) (s : LoopState), s.cancelled = false →
      s.total_iterations ≤ s.current_iteration + fuel →
      ∃ s', run_loop outcome scripts can_prompt fuel s
        = some (s.total_iterations, .improved, exhausted_message s.total_iterations, s') := by
  intro fuel
  induction fuel with
  | zero =>
    intro s hc hb
    refine ⟨s, ?_⟩
    unfold run_loop
    rw [if_neg (by omega)]
  | succ f ih =>
    intro s hc hb
    by_cases hguard : s.current_iteration < s.total_iterations
    · have hc2 : (track_usage
          { s with current_iteration := s.current_iteration + 1 }
          (outcome (s.current_iteration + 1))).cancelled = false := by
        rw [track_usage_cancelled]; exact hc
      have hb2 : (track_usage
          { s with current_iteration := s.current_iteration + 1 }
          (outcome (s.current_iteration + 1))).total_iterations ≤
          (track_usage
            { s with current_iteration := s.current_iteration + 1 }
            (outcome (s.current_iteration + 1))).current_iteration + f := by
        rw [track_usage_total, track_usage_current]
        simp <;> omega
      have ht : (track_usage
          { s with current_iteration := s.current_iteration + 1 }
          (outcome (s.current_iteration + 1))).total_iterations = s.total_iterations := by
        rw [track_usage_total]
      obtain ⟨s', hs'⟩ := ih _ hc2 hb2
      refine ⟨s', ?_⟩
      rw [run_loop, if_pos hguard]
      simp only [himp, hscr, get_user_decision]
      rw [ht] at hs'
      simp only [hc2, Bool.false_eq_true, if_false]
      split <;> exact hs'
    · refine ⟨s, ?_⟩
      rw [run_loop, if_neg hguard]

theorem run_loop_cancel_first (outcome : Nat → AgentRunResult)
    (scripts : Nat → List MainAction)
    (himp : (outcome 1).status = .improved)
    (hscr : scripts 1 = [MainAction.cancelRun])
    (f : Nat) (s : LoopState)
    (h0 : s.current_iteration = 0) (hskip : s.skip_prompts = false)
    (h2 : 2 ≤ s.total_iterations) :
    ∃ s', run_loop outcome scripts true (f + 1) s
      = some (1, .improved, cancelled_message 1, s') := by
  have hguard : s.current_iteration < s.total_iterations := by omega
  refine ⟨{ track_usage { s with current_iteration := 1 } (outcome 1) with
    cancelled := true }, ?_⟩
  rw [run_loop, if_pos hguard]
  simp only [h0, Nat.zero_add, himp]
  have hskip2 : (track_usage { s with current_iteration := 0 + 1 }
      (outcome (0 + 1))).skip_prompts = false := by
    rw [track_usage_skip]; exact hskip
  have hislast : decide ((track_usage { s with current_iteration := 0 + 1 }
        (outcome (0 + 1))).total_iterations ≤
      (track_usage { s with current_iteration := 0 + 1 }
        (outcome (0 + 1))).current_iteration) = false := by
    apply decide_eq_false
    rw [track_usage_total, track_usage_current]
    simp
    omega
  simp only [Nat.zero_add] at hskip2 hislast
  simp only [hskip2, hislast, hscr, get_user_decision, Bool.not_false, Bool.and_self,
    Bool.and_true, Bool.true_and, if_true]

theorem run_endless_loop_all_timeout (outcome : Nat → AgentRunResult)
    (h : ∀ n, (outcome n).status = .timeout) (s : LoopState)
    (h0 : s.current_iteration = 0) (fuel : Nat) (hf : 3 ≤ fuel) :
    ∃ s', run_endless_loop outcome none 3 fuel s 0
      = some (3, .timeout, consecutive_errors_message 3 3, s') := by
  obtain ⟨f, rfl⟩ : ∃ f, fuel = f + 3 := ⟨fuel - 3, by omega⟩
  refine ⟨track_usage
    { track_usage
        { track_usage { s with current_iteration := 1 } (outcome 1) with
          current_iteration := 2 } (outcome 2) with
      current_iteration := 3 } (outcome 3), ?_⟩
  show run_endless_loop outcome none 3 (f + 2 + 1) s 0 = _
  simp only [run_endless_loop, h, h0, track_usage_current, endless_consecutive_update,
    is_consecutive_error, Nat.zero_add]
  norm_num

/-- C1: for every text containing both a `<Completed>...</Completed>` span and
an `<Improved>...</Improved>` span, `parse_output` of both the Claude and the
OpenCode adapter returns marker kind "completed" with the completed span's
trimmed inner text as `output_message`, regardless of which marker appears
first in the text (the hypotheses only require both marker searches to
succeed, at any positions). -/
theorem completed_marker_priority :
    (∀ (loads : List Char → Option Json) (raw mC mI : List Char),
       findMarker completedOpenTag completedCloseTag (claude_scan loads raw).1 = some mC →
       findMarker improvedOpenTag improvedCloseTag (claude_scan loads raw).1 = some mI →
       (ClaudeAgent.parse_output loads raw).marker = some MarkerKind.completed ∧
       (ClaudeAgent.parse_output loads raw).output_message = some (pyStrip mC)) ∧
    (∀ (loads : List Char → Option Json) (raw mC mI : List Char),
       findMarker completedOpenTag completedCloseTag (opencode_scan loads raw).1 = some mC →
       findMarker improvedOpenTag improvedCloseTag (opencode_scan loads raw).1 = some mI →
       (OpenCodeAgent.parse_output loads raw).marker = some MarkerKind.completed ∧
       (OpenCodeAgent.parse_output loads raw).output_message = some (pyStrip mC)) := by
  constructor
  · intro loads raw mC mI h1 h2
    unfold ClaudeAgent.parse_output
    rw [h1]
    exact ⟨rfl, rfl⟩
  · intro loads raw mC mI h1 h2
    unfold OpenCodeAgent.parse_output
    rw [h1]
    exact ⟨rfl, rfl⟩

theorem completed_marker_priority_witness :
    ((ClaudeAgent.parse_output noLoads c1Raw).marker = some MarkerKind.completed ∧
     (ClaudeAgent.parse_output noLoads c1Raw).output_message = some (pyStrip c1Completed)) ∧
    ((OpenCodeAgent.parse_output noLoads c1Raw).marker = some MarkerKind.completed ∧
     (OpenCodeAgent.parse_output noLoads c1Raw).output_message = some (pyStrip c1Completed)) :=
  ⟨completed_marker_priority.1 noLoads c1Raw c1Completed c1Improved rfl rfl,
   completed_marker_priority.2 noLoads c1Raw c1Completed c1Improved rfl rfl⟩

/-- C8: when a text decomposes as `p ++ open ++ m ++ close ++ rest` where
`p.length` is the first position of the opening tag and `m.length` the first
position of the closing tag after it — that is, `m` is the content of the
earliest marker, with any further markers inside `rest` — the regex model
returns exactly `m` (first conjunct: the search is leftmost and non-greedy,
only the first match is used), and both adapters then return the trimmed
inner text of that first match (remaining conjuncts, the improved kind
requiring that no completed marker matches anywhere). -/
theorem earliest_marker_first_match :
    (∀ openTag closeTag p m rest : List Char,
       findIdxAux openTag (p ++ openTag ++ m ++ closeTag ++ rest) 0 = some p.length →
       findIdxAux closeTag (m ++ closeTag ++ rest) 0 = some m.length →
       findMarker openTag closeTag (p ++ openTag ++ m ++ closeTag ++ rest) = some m) ∧
    (∀ (loads : List Char → Option Json) (raw m : List Char),
       findMarker completedOpenTag completedCloseTag (claude_scan loads raw).1 = some m →
       (ClaudeAgent.parse_output loads raw).marker = some MarkerKind.completed ∧
       (ClaudeAgent.parse_output loads raw).output_message = some (pyStrip m)) ∧
    (∀ (loads : List Char → Option Json) (raw m : List Char),
       findMarker completedOpenTag completedCloseTag (claude_scan loads raw).1 = none →
       findMarker improvedOpenTag improvedCloseTag (claude_scan loads raw).1 = some m →
       (ClaudeAgent.parse_output loads raw).marker = some MarkerKind.improved ∧
       (ClaudeAgent.parse_output loads raw).output_message = some (pyStrip m)) ∧
    (∀ (loads : List Char → Option Json) (raw m : List Char),
       findMarker completedOpenTag completedCloseTag (opencode_scan loads raw).1 = some m →
       (OpenCodeAgent.parse_output loads raw).marker = some MarkerKind.completed ∧
       (OpenCodeAgent.parse_output loads raw).output_message = some (pyStrip m)) ∧
    (∀ (loads : List Char → Option Json) (raw m : List Char),
       findMarker completedOpenTag completedCloseTag (opencode_scan loads raw).1 = none →
       findMarker improvedOpenTag improvedCloseTag (opencode_scan loads raw).1 = some m →
       (OpenCodeAgent.parse_output loads raw).marker = some MarkerKind.improved ∧
       (OpenCodeAgent.parse_output loads raw).output_message = some (pyStrip m)) := by
  refine ⟨findMarker_of_decomposition, ?_, ?_, ?_, ?_⟩
  · intro loads raw m h1
    unfold ClaudeAgent.parse_output
    rw [h1]
    exact ⟨rfl, rfl⟩
  · intro loads raw m h1 h2
    unfold ClaudeAgent.parse_output
    rw [h1, h2]
    exact ⟨rfl, rfl⟩
  · intro loads raw m h1
    unfold OpenCodeAgent.parse_output
    rw [h1]
    exact ⟨rfl, rfl⟩
  · intro loads raw m h1 h2
    unfold OpenCodeAgent.parse_output
    rw [h1, h2]
    exact ⟨rfl, rfl⟩

theorem earliest_marker_first_match_witness :
    findMarker completedOpenTag completedCloseTag
      (c8Prefix ++ completedOpenTag ++ c8First ++ completedCloseTag ++ c8Rest) = some c8First ∧
    (ClaudeAgent.parse_output noLoads c8Raw).output_message = some (pyStrip c8First) :=
  ⟨earliest_marker_first_match.1 completedOpenTag completedCloseTag c8Prefix c8First c8Rest
      rfl rfl,
   (earliest_marker_first_match.2.1 noLoads c8Raw c8First rfl).2⟩

/-- C5: on a transcript containing neither marker the Claude adapter returns
marker kind absent with the fallback summary; the fallback summary is always
non-empty and at most 500 characters long, is built by joining the last up to
3 non-empty stripped lines when any exist, and is the fixed sentinel
`"No output captured"` on empty or whitespace-only input. -/
theorem fallback_summary_no_marker :
    (∀ (loads : List Char → Option Json) (raw : List Char),
       findMarker completedOpenTag completedCloseTag (claude_scan loads raw).1 = none →
       findMarker improvedOpenTag improvedCloseTag (claude_scan loads raw).1 = none →
       (ClaudeAgent.parse_output loads raw).marker = none ∧
       (ClaudeAgent.parse_output loads raw).output_message = none ∧
       (ClaudeAgent.parse_output loads raw).summary
         = extract_fallback_summary (claude_scan loads raw).1) ∧
    (∀ text : List Char, extract_fallback_summary text ≠ []) ∧
    (∀ text : List Char, (extract_fallback_summary text).length ≤ 500) ∧
    (∀ text : List Char, pyLines text ≠ [] →
       extract_fallback_summary text =
         (joinSpace (if 3 < (pyLines text).length then
             (pyLines text).drop ((pyLines text).length - 3)
           else pyLines text)).take 500) ∧
    (∀ text : List Char, (∀ c ∈ text, pyIsSpace c = true) →
       extract_fallback_summary text = noOutputSentinel) := by
  refine ⟨?_, extract_fallback_summary_ne_nil, extract_fallback_summary_length_le, ?_,
    fun text h => extract_fallback_summary_whitespace h⟩
  · intro loads raw h1 h2
    unfold ClaudeAgent.parse_output
    rw [h1, h2]
    exact ⟨rfl, rfl, rfl⟩
  · intro text hne
    rw [extract_fallback_summary_eq, if_neg]
    intro hemp
    rw [List.isEmpty_iff] at hemp
    exact hne hemp

theorem fallback_summary_no_marker_witness :
    ((ClaudeAgent.parse_output noLoads c5Raw).marker = none ∧
     (ClaudeAgent.parse_output noLoads c5Raw).output_message = none ∧
     (ClaudeAgent.parse_output noLoads c5Raw).summary
       = extract_fallback_summary (claude_scan noLoads c5Raw).1) ∧
    pyLines c5Raw ≠ [] ∧
    extract_fallback_summary c5Raw =
      (joinSpace (if 3 < (pyLines c5Raw).length then
          (pyLines c5Raw).drop ((pyLines c5Raw).length - 3)
        else pyLines c5Raw)).take 500 ∧
    extract_fallback_summary c5Blank = noOutputSentinel :=
  ⟨fallback_summary_no_marker.1 noLoads c5Raw rfl rfl,
   by decide,
   fallback_summary_no_marker.2.2.2.1 c5Raw (by decide),
   fallback_summary_no_marker.2.2.2.2 c5Blank (by decide)⟩

/-- C10: when the Claude raw output decodes to a JSON object with no
`"result"` field (or with `"result"` equal to the empty string), the adapter
returns marker kind absent with the sentinel summary, even though the raw
output itself is non-empty; token usage is still extracted from the decoded
object, and the fallback extractor runs on the extracted (empty) transcript,
not on the raw output. -/
theorem claude_empty_result_sentinel (loads : List Char → Option Json)
    (raw : List Char) (fields : List (List Char × Json)) (hraw : raw ≠ [])
    (hload : loads raw = some (Json.obj fields))
    (hres : jsonLookup fields kResult = none ∨
      jsonLookup fields kResult = some (Json.str [])) :
    (ClaudeAgent.parse_output loads raw).marker = none ∧
    (ClaudeAgent.parse_output loads raw).output_message = none ∧
    (ClaudeAgent.parse_output loads raw).summary = noOutputSentinel ∧
    (ClaudeAgent.parse_output loads raw).token_usage = parse_token_usage fields := by
  have hscan : claude_scan loads raw = ([], parse_token_usage fields) := by
    unfold claude_scan
    rw [hload]
    rcases hres with h | h <;> simp [jsonLookupD, h, textFromResult]
  unfold ClaudeAgent.parse_output
  rw [hscan]
  exact ⟨rfl, rfl, rfl, rfl⟩

theorem claude_empty_result_sentinel_witness :
    (ClaudeAgent.parse_output c10Loads c10Raw).marker = none ∧
    (ClaudeAgent.parse_output c10Loads c10Raw).output_message = none ∧
    (ClaudeAgent.parse_output c10Loads c10Raw).summary = noOutputSentinel ∧
    (ClaudeAgent.parse_output c10Loads c10Raw).token_usage = parse_token_usage [] :=
  claude_empty_result_sentinel c10Loads c10Raw [] (by decide) rfl (Or.inl rfl)

/-- C3: `parse_token_usage` returns `None` exactly when no usage object is
found or when the extracted `input_tokens` and `output_tokens` are both zero;
with a usage object present, a nonzero `input_tokens` and an absent
`output_tokens` (defaulting to zero) yield a usage object rather than `None`;
and nonzero cache counters alone never yield a usage object. -/
theorem parse_token_usage_none_boundary :
    (∀ fields : List (List Char × Json), find_usage_data fields = none →
       parse_token_usage fields = none) ∧
    (∀ (fields : List (List Char × Json)) (u : List (List Char × Json)),
       find_usage_data fields = some u →
       (parse_token_usage fields = none ↔
         (pyEqZero (jsonLookupD u kInputTokens (Json.num 0)) = true ∧
          pyEqZero (jsonLookupD u kOutputTokens (Json.num 0)) = true))) ∧
    (∀ (fields : List (List Char × Json)) (u : List (List Char × Json)) (n : Int),
       find_usage_data fields = some u →
       jsonLookup u kInputTokens = some (Json.num n) → n ≠ 0 →
       jsonLookup u kOutputTokens = none →
       parse_token_usage fields =
         some ⟨n, 0, jsonAsInt (jsonLookupD u kCacheReadInput (Json.num 0)),
               jsonAsInt (jsonLookupD u kCacheCreationInput (Json.num 0))⟩) ∧
    (∀ (fields : List (List Char × Json)) (u : List (List Char × Json)),
       find_usage_data fields = some u →
       pyEqZero (jsonLookupD u kInputTokens (Json.num 0)) = true →
       pyEqZero (jsonLookupD u kOutputTokens (Json.num 0)) = true →
       parse_token_usage fields = none) := by
  refine ⟨?_, ?_, ?_, ?_⟩
  · intro fields h
    unfold parse_token_usage
    rw [h]
  · intro fields u h
    unfold parse_token_usage
    rw [h]
    dsimp only
    split
    case isTrue hz =>
      rw [Bool.and_eq_true] at hz
      exact iff_of_true rfl hz
    case isFalse hz =>
      rw [Bool.and_eq_true] at hz
      exact iff_of_false (by simp) hz
  · intro fields u n h hin hn hout
    unfold parse_token_usage
    rw [h]
    dsimp only
    have h1 : jsonLookupD u kInputTokens (Json.num 0) = Json.num n := by
      unfold jsonLookupD
      rw [hin]
    have h2 : jsonLookupD u kOutputTokens (Json.num 0) = Json.num 0 := by
      unfold jsonLookupD
      rw [hout]
    rw [h1, h2]
    have hcond : (pyEqZero (Json.num n) && pyEqZero (Json.num 0)) = false := by
      simp [pyEqZero, hn]
    rw [hcond]
    rfl
  · intro fields u h hz1 hz2
    unfold parse_token_usage
    rw [h]
    dsimp only
    rw [hz1, hz2]
    rfl

theorem parse_token_usage_none_boundary_witness :
    parse_token_usage [] = none ∧
    parse_token_usage c3Partial = some ⟨5, 0, 9, 0⟩ ∧
    parse_token_usage c3CacheOnly = none :=
  ⟨parse_token_usage_none_boundary.1 [] rfl,
   parse_token_usage_none_boundary.2.2.1 c3Partial c3PartialUsage 5 rfl rfl (by decide) rfl,
   parse_token_usage_none_boundary.2.2.2 c3CacheOnly c3CacheOnlyUsage rfl rfl rfl⟩

/-- C4 amended: the token usage returned by `OpenCodeAgent.parse_output` is
that of the first NDJSON line whose per-line extraction succeeds — the first
`step_finish` event whose `part.tokens` is truthy and whose input or output
count is truthy.  A `step_finish` event carrying a tokens object with zero
input and output counts sets nothing and does not block later events. -/
theorem step_finish_first_qualifying_wins (loads : List Char → Option Json)
    (raw : List Char) :
    (OpenCodeAgent.parse_output loads raw).token_usage
      = (pySplitNl (pyStrip raw)).findSome? (opencodeLineUsage loads) :=
  (opencode_parse_output_token_usage loads raw).trans (opencode_scan_snd loads raw)

/-- C4 counterexample: the NDJSON output `c4Raw` contains two `step_finish`
events that both carry a `part.tokens` object, yet the returned token usage
is the one built from the second event — the first such event (whose counts
are zero) sets nothing, so the claim that the first `step_finish` event
carrying a tokens object wins and all later ones are ignored is false. -/
theorem step_finish_first_event_counterexample :
    (OpenCodeAgent.parse_output c4Loads c4Raw).token_usage = some ⟨5, 7, 0, 0⟩ ∧
    pySplitNl (pyStrip c4Raw) = [c4Line1, c4Line2] ∧
    c4Loads c4Line1 = some (Json.obj c4Fields1) ∧
    c4Loads c4Line2 = some (Json.obj c4Fields2) ∧
    jsonLookup c4Fields1 kType = some (Json.str evStepFinish) ∧
    jsonLookupD c4Fields1 kPart (Json.obj [])
      = Json.obj [(kTokens, Json.obj [(kInput, Json.num 0), (kOutput, Json.num 0)])] ∧
    opencodeLineUsage c4Loads c4Line1 = none ∧
    opencodeLineUsage c4Loads c4Line2 = some ⟨5, 7, 0, 0⟩ :=
  ⟨rfl, rfl, rfl, rfl, rfl, rfl, rfl, rfl⟩

/-- C6: a cancel choice in the edit sub-menu restores `plan_text`,
`total_iterations` and `agent_type` to their values at sub-menu entry — in
fact it returns the entry state unchanged, so the three revert together —
and returns `False`; a confirm choice keeps every speculative edit and
returns `True`. -/
theorem edit_menu_cancel_restores :
    (∀ (edits : List EditAction) (s : LoopState),
       prompt_edit_menu edits false s = (false, s)) ∧
    (∀ (edits : List EditAction) (s : LoopState),
       prompt_edit_menu edits true s = (true, apply_edit_actions s edits)) :=
  ⟨prompt_edit_menu_cancel_eq, fun _ _ => rfl⟩

/-- C7: throughout a bounded-mode run `current_iteration` only increases and
never exceeds `total_iterations`.  Each state mutation of the interactive
layer — an individual edit choice (including the remaining-iteration change,
which sets `total_iterations` to `current_iteration` plus a non-negative
remaining count), the whole edit sub-menu (confirm or cancel-restore) and the
main decision menu — leaves `current_iteration` unchanged and preserves
`current_iteration ≤ total_iterations`; and any completed `run_loop` run
never decreases `current_iteration` and preserves the bound. -/
theorem bounded_loop_iteration_invariant :
    (∀ (s : LoopState) (a : EditAction),
       (apply_edit_action s a).current_iteration = s.current_iteration ∧
       (s.current_iteration ≤ s.total_iterations →
         (apply_edit_action s a).current_iteration
           ≤ (apply_edit_action s a).total_iterations)) ∧
    (∀ (s : LoopState) (edits : List EditAction) (confirm : Bool),
       (prompt_edit_menu edits confirm s).2.current_iteration = s.current_iteration ∧
       (s.current_iteration ≤ s.total_iterations →
         (prompt_edit_menu edits confirm s).2.current_iteration
           ≤ (prompt_edit_menu edits confirm s).2.total_iterations)) ∧
    (∀ (s : LoopState) (script : List MainAction),
       (get_user_decision script s).current_iteration = s.current_iteration ∧
       (s.current_iteration ≤ s.total_iterations →
         (get_user_decision script s).current_iteration
           ≤ (get_user_decision script s).total_iterations)) ∧
    (∀ (outcome : Nat → AgentRunResult) (scripts : Nat → List MainAction)
       (can_prompt : Bool) (fuel : Nat) (s : LoopState) (i : Nat) (st : RunStatus)
       (msg : List Char) (s' : LoopState),
       run_loop outcome scripts can_prompt fuel s = some (i, st, msg, s') →
       s.current_iteration ≤ s'.current_iteration ∧
       (s.current_iteration ≤ s.total_iterations →
         s'.current_iteration ≤ s'.total_iterations)) :=
  ⟨fun s a => ⟨(apply_edit_action_fields s a).1, apply_edit_action_invariant s a⟩,
   fun s edits confirm =>
     ⟨prompt_edit_menu_snd_current edits confirm s,
      prompt_edit_menu_snd_invariant edits confirm s⟩,
   fun s script =>
     ⟨get_user_decision_current script s,
      get_user_decision_invariant script s⟩,
   fun outcome scripts can_prompt fuel s i st msg s' h =>
     run_loop_invariant outcome scripts can_prompt fuel s i st msg s' h⟩

theorem bounded_loop_iteration_invariant_witness :
    c7State.current_iteration ≤ c7Final.current_iteration ∧
    (c7State.current_iteration ≤ c7State.total_iterations →
      c7Final.current_iteration ≤ c7Final.total_iterations) :=
  bounded_loop_iteration_invariant.2.2.2 c7Outcome (fun _ => []) true 1 c7State
    1 RunStatus.completed (completed_message 1) c7Final rfl

/-- C2: in endless mode with `max_consecutive_errors = 3` and every iteration
timing out, the loop stops after exactly 3 iterations with final status
TIMEOUT and the message `"Stopped at iteration 3 after 3 consecutive
errors"`, which mentions "consecutive errors"; and the consecutive-error
counter update resets to zero on every COMPLETED, IMPROVED or MISSING_MARKER
outcome. -/
theorem endless_loop_consecutive_errors :
    (∀ (outcome : Nat → AgentRunResult) (s : LoopState) (fuel : Nat),
       (∀ n, (outcome n).status = RunStatus.timeout) → s.current_iteration = 0 →
       3 ≤ fuel →
       ∃ s', run_endless_loop outcome none 3 fuel s 0
         = some (3, RunStatus.timeout, consecutive_errors_message 3 3, s')) ∧
    containsSubstring "consecutive errors".data (consecutive_errors_message 3 3) = true ∧
    (∀ (c : Nat) (st : RunStatus),
       st = RunStatus.completed ∨ st = RunStatus.improved ∨ st = RunStatus.missing_marker →
       endless_consecutive_update st c = 0) := by
  refine ⟨fun outcome s fuel h h0 hf => run_endless_loop_all_timeout outcome h s h0 fuel hf,
    by decide, ?_⟩
  intro c st h
  rcases h with h | h | h <;> subst h <;> rfl

theorem endless_loop_consecutive_errors_witness :
    ∃ s', run_endless_loop c2Outcome none 3 3 c2State 0
      = some (3, RunStatus.timeout, consecutive_errors_message 3 3, s') :=
  endless_loop_consecutive_errors.1 c2Outcome c2State 3 (fun _ => rfl) rfl (by decide)

/-- C9: `run_loop` returns the same status tag `RunStatus.IMPROVED` both when
the user cancels via the interactive prompt and when the iteration budget is
exhausted without completion; the `run` command maps that status to exit
code 2, so the two terminal outcomes are told apart only by their message
texts, which always differ. -/
theorem cancel_and_exhaustion_same_status :
    (∀ (outcome : Nat → AgentRunResult) (scripts : Nat → List MainAction)
       (f : Nat) (s : LoopState),
       (outcome 1).status = RunStatus.improved → scripts 1 = [MainAction.cancelRun] →
       s.current_iteration = 0 → s.skip_prompts = false → 2 ≤ s.total_iterations →
       ∃ s', run_loop outcome scripts true (f + 1) s
         = some (1, RunStatus.improved, cancelled_message 1, s')) ∧
    (∀ (outcome : Nat → AgentRunResult) (scripts : Nat → List MainAction)
       (can_prompt : Bool) (fuel : Nat) (s : LoopState),
       (∀ n, (outcome n).status = RunStatus.improved) →
       (∀ n, scripts n = [MainAction.cont]) →
       s.cancelled = false → s.total_iterations ≤ s.current_iteration + fuel →
       ∃ s', run_loop outcome scripts can_prompt fuel s
         = some (s.total_iterations, RunStatus.improved,
             exhausted_message s.total_iterations, s')) ∧
    run_exit_code RunStatus.improved = 2 ∧
    (∀ n : Nat, cancelled_message 1 ≠ exhausted_message n) := by
  refine ⟨fun outcome scripts f s h1 h2 h3 h4 h5 =>
      run_loop_cancel_first outcome scripts h1 h2 f s h3 h4 h5,
    fun outcome scripts can_prompt fuel s h1 h2 h3 h4 =>
      run_loop_all_improved outcome scripts can_prompt h1 h2 fuel s h3 h4,
    rfl, ?_⟩
  intro n h
  have h1 : (cancelled_message 1).head? = some 'C' := rfl
  have h2 : (exhausted_message n).head? = some 'R' := rfl
  rw [h] at h1
  have h3 := h1.symm.trans h2
  injection h3 with h4
  exact absurd h4 (by decide)

theorem cancel_and_exhaustion_same_status_witness :
    (∃ s', run_loop c9Outcome c9Scripts true 1 c9State
      = some (1, RunStatus.improved, cancelled_message 1, s')) ∧
    (∃ s', run_loop c9Outcome (fun _ => [MainAction.cont]) true 3 c9State
      = some (3, RunStatus.improved, exhausted_message 3, s')) :=
  ⟨cancel_and_exhaustion_same_status.1 c9Outcome c9Scripts 0 c9State rfl rfl rfl rfl
      (by decide),
   cancel_and_exhaustion_same_status.2.1 c9Outcome (fun _ => [MainAction.cont]) true 3
      c9State (fun _ => rfl) (fun _ => rfl) rfl (by decide)⟩
